import Mathlib

/-!
# Verification of the TextEditor core (src/app/editor/TextEditor.tsx)

Shallow embedding of the editor's core logic:

* the gesture-driven ordered color palette (`moveColor`, `updateColor`,
  `handleDrop`, the long-press timer of `handleMouseDown` / `handleMouseUp` /
  `handleDragStart`),
* the snippet inserter (`insertSnippet` and the numbered C / I toolbar
  buttons with their counters),
* the selection-scoped font-size adjuster (`changeFontSizeBy`).

React `useState` values are gathered into an explicit `EditorState` record;
each event handler becomes a function from state (plus its event payload) to
state.  DOM reads that the handlers perform (selection, computed style, text
content) are modelled by explicit inputs.
-/

/-- The `useState` cells of the `TextEditor` component that the palette and
snippet logic reads and writes.  `colors` seeds with 8 entries; `cCounter`
and `iCounter` start at 1; the index options start at `null` (`none`). -/
structure EditorState where
  colors : List String
  editingIndex : Option Nat
  draggedIndex : Option Nat
  dropPosition : Option Nat
  activeColorIndex : Option Nat
  cCounter : Nat
  iCounter : Nat
  justInsertedSnippet : Bool
  deriving Repr, DecidableEq

/-- The initial palette seed (line 12 of the source). -/
def initialColors : List String :=
  ["#000000", "#FF0000", "#00B050", "#0070C0", "#FFD966", "#FF6B6B", "#4ECDC4", "#95E1D3"]

/-- The component's initial state. -/
def initialEditorState : EditorState :=
  { colors := initialColors
    editingIndex := none
    draggedIndex := none
    dropPosition := none
    activeColorIndex := none
    cCounter := 1
    iCounter := 1
    justInsertedSnippet := false }

inductive MoveDirection where
  | up
  | down
  deriving Repr, DecidableEq

/-- JS destructuring swap `[a[i], a[j]] = [a[j], a[i]]` for in-bounds
indices: both reads happen before both writes.  (The UI only invokes the swap
with in-bounds indices.) -/
def listSwap (l : List String) (i j : Nat) : List String :=
  match l.get? i, l.get? j with
  | some a, some b => (l.set i b).set j a
  | _, _ => l

/-- Source line 244, `newIndex = direction === 'up' ? index - 1 : index + 1`, on the integers as in JS. -/
def neighborIndex (index : Nat) : MoveDirection → Int
  | .up => (index : Int) - 1
  | .down => (index : Int) + 1

/-- Source `moveColor(index, direction)` (lines 242-248): compute the
neighbor index, bail out when it falls outside the array, otherwise swap the
two entries. -/
def moveColor (s : EditorState) (index : Nat) (direction : MoveDirection) : EditorState :=
  if neighborIndex index direction < 0 ∨
      (s.colors.length : Int) ≤ neighborIndex index direction then s
  else { s with colors := listSwap s.colors index (neighborIndex index direction).toNat }

/-- Source `updateColor(index, value)` (lines 250-255): write the value at
`index` in place and leave edit mode.  (`Array.prototype[index] = value` for
the in-bounds indices the UI produces is `List.set`.) -/
def updateColor (s : EditorState) (index : Nat) (value : String) : EditorState :=
  { s with colors := s.colors.set index value, editingIndex := none }

/-- Source `handleDrop(index)` (lines 321-335): when a drag source is set and
differs from the drop index, `splice` the dragged entry out and `splice` it
back in at the drop index; always clear the drag source and drop indicator.
The drag source is always an in-bounds palette index (it is set by
`handleDragStart` from the rendered list), so the dragged color lookup
succeeds; the unreachable out-of-bounds branch leaves the palette as is. -/
def handleDrop (s : EditorState) (index : Nat) : EditorState :=
  match s.draggedIndex with
  | none => { s with draggedIndex := none, dropPosition := none }
  | some di =>
    if di = index then { s with draggedIndex := none, dropPosition := none }
    else
      match s.colors.get? di with
      | some draggedColor =>
        { s with
          colors := List.insertIdx index draggedColor (s.colors.eraseIdx di)
          draggedIndex := none
          dropPosition := none }
      | none => { s with draggedIndex := none, dropPosition := none }

/-! ## DOM model for the snippet inserter -/

/-- A DOM node: a text node carrying its character data, or an element with a
tag name and children. -/
inductive DomNode where
  | text (content : String) : DomNode
  | element (tag : String) (children : List DomNode) : DomNode

mutual

/-- DOM `node.textContent`: concatenation of all descendant character data. -/
def DomNode.textContent : DomNode → String
  | .text s => s
  | .element _ cs => DomNode.textContentList cs

def DomNode.textContentList : List DomNode → String
  | [] => ""
  | n :: ns => n.textContent ++ DomNode.textContentList ns

end

/-- The caret position `insertSnippet` works with: `container` is the range's
`startContainer`, `ancestorElems` its chain of ancestor elements, innermost
parent first.  (In the rendered editor a caret container always has a parent
element.) -/
structure CaretContext where
  container : DomNode
  ancestorElems : List DomNode

/-- The node whose text content `insertSnippet` examines (source lines
88-97): the start container itself, unless it is a text node, in which case
its parent. -/
def examinedNode (c : CaretContext) : Option DomNode :=
  match c.container with
  | .text _ => c.ancestorElems.head?
  | .element _ _ => some c.container

/-- Value of `textContent || ''` of the examined node. -/
def examinedText (c : CaretContext) : String :=
  match examinedNode c with
  | some n => n.textContent
  | none => ""

/-- Test `textContent.trim().length > 0`: a string trims to something non-empty
exactly when it contains a non-whitespace character. -/
def hasNonWhitespaceText (s : String) : Bool :=
  s.data.any (fun c => !c.isWhitespace)

/-- Source `hasTextOnLine` (line 98): the examined node's text content has
non-whitespace characters. -/
def hasTextOnLine (c : CaretContext) : Bool :=
  hasNonWhitespaceText (examinedText c)

/-- Block-level tags of the document model (paragraphs, headings, list
containers and items, generic blocks). -/
def blockTags : List String := ["p", "h1", "h2", "h3", "h4", "h5", "h6", "div", "li", "ul", "ol", "blockquote"]

def DomNode.isBlock : DomNode → Bool
  | .text _ => false
  | .element tag _ => blockTags.contains tag

/-- Modelled from the spec: "the nearest block-level ancestor of the caret" —
the first block element on the path from the caret container upward. -/
def nearestBlockAncestor (c : CaretContext) : Option DomNode :=
  (c.container :: c.ancestorElems).find? DomNode.isBlock

/-- Modelled from the spec: "the current block ... already contains
non-whitespace text". -/
def hasTextOnLineSpec (c : CaretContext) : Bool :=
  match nearestBlockAncestor c with
  | some n => hasNonWhitespaceText n.textContent
  | none => false

/-- A node inserted into the document by the snippet inserter: a `<br>`, or
the bold 20pt `<span>` holding the snippet prefix text. -/
inductive InsertedNode where
  | br
  | snippetSpan (text : String)
  deriving Repr, DecidableEq

/-- The document insertions `insertSnippet(text)` performs (source lines
80-126): nothing when there is no selection range; otherwise a `<br>` first
when the current line already has text, then always the snippet span.  The
nodes are listed in document order. -/
def insertSnippetNodes (sel : Option CaretContext) (text : String) : List InsertedNode :=
  match sel with
  | none => []
  | some c =>
    (if hasTextOnLine c then [InsertedNode.br] else []) ++ [InsertedNode.snippetSpan text]

/-- The prefix text the C button passes to `insertSnippet` (source line 454). -/
def cSnippetText (n : Nat) : String := "C" ++ toString n ++ ": "

/-- The prefix text the I button passes to `insertSnippet` (source line 464). -/
def iSnippetText (n : Nat) : String := "I" ++ toString n ++ ": "

/-- The C toolbar button's `onClick` (source lines 451-460):
`insertSnippet(‶C${cCounter}: ″)` — which sets `justInsertedSnippet`
unconditionally — then `setCCounter(prev => prev + 1)`, run whether or not a
selection existed.  Returns the new state and the nodes inserted. -/
def clickCButton (s : EditorState) (sel : Option CaretContext) :
    EditorState × List InsertedNode :=
  ({ s with justInsertedSnippet := true, cCounter := s.cCounter + 1 },
   insertSnippetNodes sel (cSnippetText s.cCounter))

/-- The I toolbar button's `onClick` (source lines 461-470), symmetric to the
C button. -/
def clickIButton (s : EditorState) (sel : Option CaretContext) :
    EditorState × List InsertedNode :=
  ({ s with justInsertedSnippet := true, iCounter := s.iCounter + 1 },
   insertSnippetNodes sel (iSnippetText s.iCounter))

/-! ## Font-size adjuster -/

/-- The selection state `changeFontSizeBy` reads: whether the current range
is collapsed, and the effective (inherited, resolved) rendered font size of
its contents in pixels. -/
structure SelectionState where
  collapsed : Bool
  resolvedFontSizePx : ℚ
  deriving Repr, DecidableEq

/-- Query `window.getComputedStyle(el).fontSize` followed by `parseFloat`: an
element in the document reports its resolved pixel size; a detached element
(not connected to the document) is not rendered, so the query yields no
usable number. -/
def computedFontSizePx (connectedToDocument : Bool) (resolvedPx : ℚ) : Option ℚ :=
  if connectedToDocument then some resolvedPx else none

/-- Source `changeFontSizeBy(delta)` (lines 128-155).  Returns the point
size written onto the wrapping span, or `none` when the function returns
without touching the document (no selection range, or a collapsed range).
The wrapper span is created with `document.createElement` and is *not yet
inserted* into the document when its computed style is read, so the read
falls back through `|| 16` to 16 (px); `range.insertNode(span)` only happens
afterwards. -/
def changeFontSizeBy (sel : Option SelectionState) (delta : ℚ) : Option ℚ :=
  match sel with
  | none => none
  | some r =>
    if r.collapsed then none
    else
      let currentSize : ℚ := (computedFontSizePx false r.resolvedFontSizePx).getD 16
      let currentPt := currentSize * 0.75
      some (max 8 (min 72 (currentPt + delta)))

/-- Modelled from the spec: "Reads the selection's *effective* rendered font
size ..., converts to point units (1pt = 4/3 px), adds `deltaPoints`, clamps
to the closed interval [8, 72]." -/
def changeFontSizeBySpec (sel : Option SelectionState) (delta : ℚ) : Option ℚ :=
  match sel with
  | none => none
  | some r =>
    if r.collapsed then none
    else some (max 8 (min 72 (r.resolvedFontSizePx * 0.75 + delta)))

/-! ## Gesture state machine (long-press timer) -/

/-- The long-press machinery of the palette: `holdTimeoutRef` is modelled as
the pending timer's (deadline, palette index) pair, `editingIndex` as in the
component state.  Time is an abstract `Nat` clock as the spec's injectable
clock suggests. -/
structure GestureState where
  holdTimeout : Option (Nat × Nat)
  editingIndex : Option Nat
  deriving Repr, DecidableEq

def initialGestureState : GestureState :=
  { holdTimeout := none, editingIndex := none }

/-- Pointer events on a palette entry, each time-stamped.  `pointerUp` and
`pointerLeave` both run `handleMouseUp` (the entry wires `onMouseUp` and
`onMouseLeave` to it); `dragStart` runs the timer-cancelling head of
`handleDragStart`. -/
inductive GestureEvent where
  | pointerDown (index : Nat) (time : Nat)
  | pointerUp (time : Nat)
  | pointerLeave (time : Nat)
  | dragStart (time : Nat)
  deriving Repr, DecidableEq

/-- In the single-threaded event loop, a pending `setTimeout` callback whose
deadline has passed runs before any later event handler: firing it performs
`startEditing(index)` (source lines 257-261 and 272-274) and consumes the
timer. -/
def fireTimer (g : GestureState) (now : Nat) : GestureState :=
  match g.holdTimeout with
  | some (deadline, i) =>
    if deadline ≤ now then { holdTimeout := none, editingIndex := some i } else g
  | none => g

/-- One event step: the elapsed timer (if any) fires first, then the handler
runs.  `handleMouseDown` (lines 267-275) clears any existing timer and arms a
new 500-unit one; `handleMouseUp` (lines 277-282) and the head of
`handleDragStart` (lines 284-289) clear the timer. -/
def gestureStep (g : GestureState) (e : GestureEvent) : GestureState :=
  match e with
  | .pointerDown i t =>
    let g := fireTimer g t
    { g with holdTimeout := some (t + 500, i) }
  | .pointerUp t =>
    let g := fireTimer g t
    { g with holdTimeout := none }
  | .pointerLeave t =>
    let g := fireTimer g t
    { g with holdTimeout := none }
  | .dragStart t =>
    let g := fireTimer g t
    { g with holdTimeout := none }

/-- Run a time-ordered trace of pointer events and observe the state at
`observeAt` (any time at or after the last event), letting a still-pending
timer whose deadline has passed fire. -/
def runGesture (g : GestureState) (events : List GestureEvent) (observeAt : Nat) : GestureState :=
  fireTimer (events.foldl gestureStep g) observeAt

/-! ## Helper lemmas -/

theorem listSwap_length (l : List String) (i j : Nat) :
    (listSwap l i j).length = l.length := by
  unfold listSwap
  cases hi : l.get? i <;> cases hj : l.get? j <;> simp

theorem listSwap_get? (l : List String) (i j : Nat) (hi : i < l.length) (hj : j < l.length)
    (k : Nat) :
    (listSwap l i j).get? k =
      if k = j then l.get? i else if k = i then l.get? j else l.get? k := by
  cases hgi : l.get? i with
  | none => exact absurd (List.get?_eq_none.mp hgi) (by omega)
  | some a =>
    cases hgj : l.get? j with
    | none => exact absurd (List.get?_eq_none.mp hgj) (by omega)
    | some b =>
      unfold listSwap
      rw [hgi, hgj]
      simp only [List.get?_set]
      by_cases hkj : k = j
      · have hlk : l.get? k = some b := by rw [hkj, hgj]
        rw [if_pos hkj, if_pos hkj.symm]
        by_cases hik : i = k
        · rw [if_pos hik, hlk]
          rfl
        · rw [if_neg hik, hlk]
          rfl
      · have hjk : ¬j = k := fun h => hkj h.symm
        by_cases hki : k = i
        · have hlk : l.get? k = some a := by rw [hki, hgi]
          rw [if_neg hjk, if_pos hki.symm, if_neg hkj, if_pos hki, hlk]
          rfl
        · have hik : ¬i = k := fun h => hki h.symm
          rw [if_neg hjk, if_neg hik, if_neg hkj, if_neg hki]

theorem listSwap_listSwap (l : List String) (i j : Nat) (hi : i < l.length)
    (hj : j < l.length) :
    listSwap (listSwap l i j) j i = l := by
  have hlen := listSwap_length l i j
  apply List.ext
  intro k
  rw [listSwap_get? _ j i (by omega) (by omega) k,
    listSwap_get? l i j hi hj j, listSwap_get? l i j hi hj i,
    listSwap_get? l i j hi hj k]
  split_ifs <;> simp_all

/-! ## Claim theorems -/

/-- C1: `reorderByDrag` (`handleDrop`) with a drag source set and distinct
from the drop index removes the dragged entry and re-inserts it at the drop
index with list-splice semantics; in particular dropping index 2 onto index 5
of `[A,B,C,D,E,F,G,H]` yields `[A,B,D,E,F,C,G,H]`; a drop on the source
itself, or with no drag source set, leaves the palette unchanged. -/
theorem handleDrop_splice_semantics :
    (∀ (s : EditorState) (src tgt : Nat) (c : String),
      s.draggedIndex = some src → src ≠ tgt → s.colors.get? src = some c →
      (handleDrop s tgt).colors = List.insertIdx tgt c (s.colors.eraseIdx src)) ∧
    (handleDrop
      { initialEditorState with
        colors := ["A", "B", "C", "D", "E", "F", "G", "H"], draggedIndex := some 2 }
      5).colors = ["A", "B", "D", "E", "F", "C", "G", "H"] ∧
    (∀ (s : EditorState) (i : Nat),
      s.draggedIndex = some i → (handleDrop s i).colors = s.colors) ∧
    (∀ (s : EditorState) (i : Nat),
      s.draggedIndex = none → (handleDrop s i).colors = s.colors) := by
  refine ⟨?_, by decide, ?_, ?_⟩
  · intro s src tgt c hdrag hne hget
    simp only [handleDrop, hdrag, if_neg hne, hget]
  · intro s i hdrag
    simp [handleDrop, hdrag]
  · intro s i hdrag
    simp [handleDrop, hdrag]

theorem handleDrop_splice_semantics_witness :
    ({ initialEditorState with draggedIndex := some 2 } : EditorState).draggedIndex = some 2 ∧
    (2 : Nat) ≠ 5 ∧
    ({ initialEditorState with draggedIndex := some 2 } : EditorState).colors.get? 2 =
      some "#00B050" ∧
    (handleDrop { initialEditorState with draggedIndex := some 2 } 5).colors =
      List.insertIdx 5 "#00B050"
        (({ initialEditorState with draggedIndex := some 2 } : EditorState).colors.eraseIdx 2) ∧
    (handleDrop { initialEditorState with draggedIndex := some 2 } 2).colors =
      ({ initialEditorState with draggedIndex := some 2 } : EditorState).colors ∧
    (handleDrop initialEditorState 5).colors = initialEditorState.colors := by
  refine ⟨rfl, by decide, rfl, ?_, ?_, ?_⟩
  · exact handleDrop_splice_semantics.1 _ 2 5 "#00B050" rfl (by decide) rfl
  · exact handleDrop_splice_semantics.2.2.1 _ 2 rfl
  · exact handleDrop_splice_semantics.2.2.2 _ 5 rfl

/-- C6: the palette's length is invariant: `moveColor` and `updateColor`
(`editColor`) preserve it unconditionally, and `handleDrop` (`reorderByDrag`)
preserves it whenever the drag source and drop index are in bounds (as they
always are, both coming from rendered palette indices). -/
theorem palette_length_invariant :
    (∀ (s : EditorState) (i : Nat) (d : MoveDirection),
      (moveColor s i d).colors.length = s.colors.length) ∧
    (∀ (s : EditorState) (i : Nat) (v : String),
      (updateColor s i v).colors.length = s.colors.length) ∧
    (∀ (s : EditorState) (i di : Nat),
      s.draggedIndex = some di → di < s.colors.length → i < s.colors.length →
      (handleDrop s i).colors.length = s.colors.length) := by
  refine ⟨?_, ?_, ?_⟩
  · intro s i d
    unfold moveColor
    split
    · rfl
    · exact listSwap_length _ _ _
  · intro s i v
    simp [updateColor]
  · intro s i di hdrag hdi hi
    by_cases hEq : di = i
    · simp only [handleDrop, hdrag, if_pos hEq]
    · cases hget : s.colors.get? di with
      | none => exact absurd (List.get?_eq_none.mp hget) (by omega)
      | some c =>
        simp only [handleDrop, hdrag, if_neg hEq, hget]
        have herase : (s.colors.eraseIdx di).length + 1 = s.colors.length :=
          List.length_eraseIdx_add_one hdi
        rw [List.length_insertIdx i _ (by omega)]
        omega

/-- C2 counterexample: clicking the C button (`insertNumberedSnippet` for the
C family) with no selection inserts nothing into the document, yet the C
counter still changes from 1 to 2 — refuting "that family's counter is
unchanged" when no snippet is inserted. -/
theorem cCounter_changes_without_insertion :
    (clickCButton initialEditorState none).2 = [] ∧
    initialEditorState.cCounter = 1 ∧
    (clickCButton initialEditorState none).1.cCounter = 2 := by
  exact ⟨rfl, rfl, rfl⟩

/-- C2 (amended): each numbered-snippet button increments its family's
counter by exactly one on *every* invocation — also when no selection exists
and no snippet is inserted — and leaves the other family's counter
unchanged; no palette or edit operation decrements or resets either
counter. -/
theorem snippet_counters_monotone :
    (∀ (s : EditorState) (sel : Option CaretContext),
      (clickCButton s sel).1.cCounter = s.cCounter + 1 ∧
      (clickCButton s sel).1.iCounter = s.iCounter) ∧
    (∀ (s : EditorState) (sel : Option CaretContext),
      (clickIButton s sel).1.iCounter = s.iCounter + 1 ∧
      (clickIButton s sel).1.cCounter = s.cCounter) ∧
    (∀ (s : EditorState) (i : Nat) (d : MoveDirection),
      (moveColor s i d).cCounter = s.cCounter ∧ (moveColor s i d).iCounter = s.iCounter) ∧
    (∀ (s : EditorState) (i : Nat) (v : String),
      (updateColor s i v).cCounter = s.cCounter ∧
      (updateColor s i v).iCounter = s.iCounter) ∧
    (∀ (s : EditorState) (i : Nat),
      (handleDrop s i).cCounter = s.cCounter ∧ (handleDrop s i).iCounter = s.iCounter) := by
  refine ⟨fun s sel => ⟨rfl, rfl⟩, fun s sel => ⟨rfl, rfl⟩, ?_, fun s i v => ⟨rfl, rfl⟩, ?_⟩
  · intro s i d
    unfold moveColor
    split <;> exact ⟨rfl, rfl⟩
  · intro s i
    cases hd : s.draggedIndex with
    | none => simp [handleDrop, hd]
    | some di =>
      by_cases hdi : di = i
      · simp [handleDrop, hd, hdi]
      · simp only [handleDrop, hd, if_neg hdi]
        cases s.colors.get? di <;> exact ⟨rfl, rfl⟩

/-- C9: from any state, two successive clicks of a family's numbered-snippet
button insert snippet spans whose prefixes carry consecutive counter values;
from the initial state the first value is 1 (`"C1: "` / `"I1: "`); and
clicking the other family's button leaves this family's counter untouched. -/
theorem numbered_snippets_consecutive :
    (∀ (s : EditorState) (ctx : CaretContext),
      (clickCButton s (some ctx)).2.getLast?
        = some (.snippetSpan (cSnippetText s.cCounter)) ∧
      (clickCButton (clickCButton s (some ctx)).1 (some ctx)).2.getLast?
        = some (.snippetSpan (cSnippetText (s.cCounter + 1)))) ∧
    (∀ (s : EditorState) (ctx : CaretContext),
      (clickIButton s (some ctx)).2.getLast?
        = some (.snippetSpan (iSnippetText s.iCounter)) ∧
      (clickIButton (clickIButton s (some ctx)).1 (some ctx)).2.getLast?
        = some (.snippetSpan (iSnippetText (s.iCounter + 1)))) ∧
    cSnippetText initialEditorState.cCounter = "C1: " ∧
    iSnippetText initialEditorState.iCounter = "I1: " ∧
    (∀ (s : EditorState) (sel : Option CaretContext),
      (clickIButton s sel).1.cCounter = s.cCounter) ∧
    (∀ (s : EditorState) (sel : Option CaretContext),
      (clickCButton s sel).1.iCounter = s.iCounter) := by
  have hlast : ∀ (ctx : CaretContext) (txt : String),
      (insertSnippetNodes (some ctx) txt).getLast? = some (.snippetSpan txt) := by
    intro ctx txt
    unfold insertSnippetNodes
    rw [List.getLast?_append_cons]
    rfl
  exact ⟨fun s ctx => ⟨hlast ctx _, hlast ctx _⟩,
    fun s ctx => ⟨hlast ctx _, hlast ctx _⟩, rfl, rfl,
    fun s sel => rfl, fun s sel => rfl⟩

/-- C3 counterexample: the caret sits in the whitespace-only text of an
inline `<span>` inside the block `<p>Hello<span> </span></p>`.  The nearest
block-level ancestor contains the non-whitespace text "Hello", so the claim
requires exactly one preceding line break, but `insertSnippet` examines only
the caret's immediate parent (the span), finds only whitespace, and inserts
no break. -/
theorem insertSnippet_break_counterexample :
    hasTextOnLineSpec
      { container := .text " "
        ancestorElems :=
          [.element "span" [.text " "],
           .element "p" [.text "Hello", .element "span" [.text " "]]] } = true ∧
    insertSnippetNodes
      (some { container := .text " "
              ancestorElems :=
                [.element "span" [.text " "],
                 .element "p" [.text "Hello", .element "span" [.text " "]]] })
      "V: " = [.snippetSpan "V: "] := by
  exact ⟨rfl, rfl⟩

/-- C3 (amended): `insertSnippet` with a live selection inserts no preceding
line break when the element it examines — the caret's container itself if it
is an element, otherwise the container's immediate parent (not necessarily
the nearest block-level ancestor) — contains only whitespace, and exactly
one line break, placed before the snippet span, when that element contains
non-whitespace text. -/
theorem insertSnippet_break_rule :
    ∀ (ctx : CaretContext) (txt : String),
      (hasNonWhitespaceText (examinedText ctx) = false →
        insertSnippetNodes (some ctx) txt = [.snippetSpan txt]) ∧
      (hasNonWhitespaceText (examinedText ctx) = true →
        insertSnippetNodes (some ctx) txt = [.br, .snippetSpan txt]) := by
  intro ctx txt
  have harr : insertSnippetNodes (some ctx) txt
      = (if hasTextOnLine ctx then [InsertedNode.br] else [])
        ++ [InsertedNode.snippetSpan txt] := rfl
  have hdef : hasTextOnLine ctx = hasNonWhitespaceText (examinedText ctx) := rfl
  constructor
  · intro h
    rw [harr, hdef, h]
    rfl
  · intro h
    rw [harr, hdef, h]
    rfl

theorem insertSnippet_break_rule_witness :
    (hasNonWhitespaceText
        (examinedText { container := .text "", ancestorElems := [.element "p" [.text ""]] })
        = false ∧
      insertSnippetNodes
        (some { container := .text "", ancestorElems := [.element "p" [.text ""]] }) "V: "
        = [.snippetSpan "V: "]) ∧
    (hasNonWhitespaceText
        (examinedText
          { container := .text "Hello", ancestorElems := [.element "p" [.text "Hello"]] })
        = true ∧
      insertSnippetNodes
        (some { container := .text "Hello",
                ancestorElems := [.element "p" [.text "Hello"]] }) "V: "
        = [.br, .snippetSpan "V: "]) := by
  refine ⟨⟨by decide, ?_⟩, ⟨by decide, ?_⟩⟩
  · exact (insertSnippet_break_rule _ "V: ").1 (by decide)
  · exact (insertSnippet_break_rule _ "V: ").2 (by decide)

/-- C5: `changeFontSizeBy` is a no-op (no span is built or inserted, the
document and selection are untouched, no error) whenever no selection range
exists or the current range is collapsed: the function returns before any
mutation. -/
theorem changeFontSizeBy_noop_cases :
    (∀ delta : ℚ, changeFontSizeBy none delta = none) ∧
    (∀ (delta : ℚ) (r : SelectionState), r.collapsed = true →
      changeFontSizeBy (some r) delta = none) := by
  refine ⟨fun _ => rfl, ?_⟩
  intro delta r h
  simp [changeFontSizeBy, h]

theorem changeFontSizeBy_noop_cases_witness :
    changeFontSizeBy none 1 = none ∧
    (({ collapsed := true, resolvedFontSizePx := 16 } : SelectionState).collapsed = true ∧
      changeFontSizeBy (some { collapsed := true, resolvedFontSizePx := 16 }) 1 = none) := by
  exact ⟨changeFontSizeBy_noop_cases.1 1,
    ⟨rfl, changeFontSizeBy_noop_cases.2 1 _ rfl⟩⟩

/-- C4: at a non-collapsed selection whose effective rendered size is 24 px
(18 pt) with delta +1, the code wraps the selection in a 13 pt span while the
specified result is clamp(18 + 1, 8, 72) = 19 pt: the computed-style read
happens on the still-detached wrapper span, yields nothing, and falls back
through `|| 16` to 16 px = 12 pt, so for every non-collapsed selection the
result is clamp(12 + delta, 8, 72), independent of the selection's resolved
size. -/
theorem changeFontSizeBy_ignores_resolved_size :
    changeFontSizeBy (some { collapsed := false, resolvedFontSizePx := 24 }) 1 = some 13 ∧
    changeFontSizeBySpec (some { collapsed := false, resolvedFontSizePx := 24 }) 1
      = some 19 ∧
    (13 : ℚ) ≠ 19 ∧
    (∀ (r : SelectionState) (delta : ℚ), r.collapsed = false →
      changeFontSizeBy (some r) delta = some (max 8 (min 72 (12 + delta)))) := by
  refine ⟨by norm_num [changeFontSizeBy, computedFontSizePx],
    by norm_num [changeFontSizeBySpec], by norm_num, ?_⟩
  intro r delta h
  simp [changeFontSizeBy, computedFontSizePx, h]
  norm_num

theorem changeFontSizeBy_ignores_resolved_size_witness :
    (({ collapsed := false, resolvedFontSizePx := 24 } : SelectionState).collapsed = false ∧
      changeFontSizeBy (some { collapsed := false, resolvedFontSizePx := 24 }) 1
        = some (max 8 (min 72 (12 + 1)))) := by
  exact ⟨rfl, changeFontSizeBy_ignores_resolved_size.2.2.2 _ 1 rfl⟩

/-- C8: in the long-press state machine, pointer-down followed by pointer-up,
pointer-leave, or drag-start strictly before 500 time-units have elapsed
never reaches the Editing state (at any later observation time), while a
pointer-down held with no further event reaches Editing for that entry once
500 time-units have passed. -/
theorem long_press_gesture :
    (∀ i t tUp T : Nat, tUp < t + 500 →
      (runGesture initialGestureState
        [.pointerDown i t, .pointerUp tUp] T).editingIndex = none) ∧
    (∀ i t tL T : Nat, tL < t + 500 →
      (runGesture initialGestureState
        [.pointerDown i t, .pointerLeave tL] T).editingIndex = none) ∧
    (∀ i t tD T : Nat, tD < t + 500 →
      (runGesture initialGestureState
        [.pointerDown i t, .dragStart tD] T).editingIndex = none) ∧
    (∀ i t T : Nat, t + 500 ≤ T →
      (runGesture initialGestureState [.pointerDown i t] T).editingIndex = some i) := by
  refine ⟨?_, ?_, ?_, ?_⟩
  · intro i t tUp T h
    simp [runGesture, gestureStep, fireTimer, initialGestureState,
      show ¬(t + 500 ≤ tUp) from by omega]
  · intro i t tL T h
    simp [runGesture, gestureStep, fireTimer, initialGestureState,
      show ¬(t + 500 ≤ tL) from by omega]
  · intro i t tD T h
    simp [runGesture, gestureStep, fireTimer, initialGestureState,
      show ¬(t + 500 ≤ tD) from by omega]
  · intro i t T h
    simp [runGesture, gestureStep, fireTimer, initialGestureState, h]

theorem long_press_gesture_witness :
    ((300 : Nat) < 0 + 500 ∧
      (runGesture initialGestureState
        [.pointerDown 2 0, .pointerUp 300] 1000).editingIndex = none) ∧
    ((300 : Nat) < 0 + 500 ∧
      (runGesture initialGestureState
        [.pointerDown 2 0, .pointerLeave 300] 1000).editingIndex = none) ∧
    ((300 : Nat) < 0 + 500 ∧
      (runGesture initialGestureState
        [.pointerDown 2 0, .dragStart 300] 1000).editingIndex = none) ∧
    ((0 : Nat) + 500 ≤ 600 ∧
      (runGesture initialGestureState [.pointerDown 2 0] 600).editingIndex = some 2) := by
  exact ⟨⟨by decide, long_press_gesture.1 2 0 300 1000 (by decide)⟩,
    ⟨by decide, long_press_gesture.2.1 2 0 300 1000 (by decide)⟩,
    ⟨by decide, long_press_gesture.2.2.1 2 0 300 1000 (by decide)⟩,
    ⟨by decide, long_press_gesture.2.2.2 2 0 600 (by decide)⟩⟩

/-- C7: `moveColor(0, up)` and `moveColor(last, down)` leave the state
unchanged, and for in-bounds `i > 0`, `moveColor(i, up)` followed by
`moveColor(i-1, down)` restores the original state. -/
theorem moveColor_no_ops_and_inverse :
    (∀ s : EditorState, moveColor s 0 .up = s) ∧
    (∀ s : EditorState, 0 < s.colors.length →
      moveColor s (s.colors.length - 1) .down = s) ∧
    (∀ (s : EditorState) (i : Nat), 0 < i → i < s.colors.length →
      moveColor (moveColor s i .up) (i - 1) .down = s) := by
  refine ⟨?_, ?_, ?_⟩
  · intro s
    unfold moveColor
    rw [if_pos]
    left
    simp [neighborIndex]
  · intro s h
    unfold moveColor
    rw [if_pos]
    right
    simp only [neighborIndex]
    omega
  · intro s i h0 hl
    have htn : ((i : Int) - 1).toNat = i - 1 := by omega
    have h1 : moveColor s i .up = { s with colors := listSwap s.colors i (i - 1) } := by
      unfold moveColor
      rw [if_neg (by simp only [neighborIndex]; omega)]
      simp only [neighborIndex, htn]
    rw [h1]
    have hlen : (listSwap s.colors i (i - 1)).length = s.colors.length :=
      listSwap_length _ _ _
    have htn2 : (((i - 1 : Nat) : Int) + 1).toNat = i := by omega
    have h2 : moveColor { s with colors := listSwap s.colors i (i - 1) } (i - 1) .down
        = { s with colors := listSwap (listSwap s.colors i (i - 1)) (i - 1) i } := by
      unfold moveColor
      rw [if_neg (by dsimp only; simp only [neighborIndex]; omega)]
      dsimp only
      simp only [neighborIndex, htn2]
    rw [h2, listSwap_listSwap s.colors i (i - 1) hl (by omega)]

theorem moveColor_no_ops_and_inverse_witness :
    moveColor initialEditorState 0 .up = initialEditorState ∧
    (0 < initialEditorState.colors.length ∧
      moveColor initialEditorState (initialEditorState.colors.length - 1) .down
        = initialEditorState) ∧
    ((0 : Nat) < 2 ∧ 2 < initialEditorState.colors.length ∧
      moveColor (moveColor initialEditorState 2 .up) 1 .down = initialEditorState) := by
  refine ⟨moveColor_no_ops_and_inverse.1 initialEditorState,
    ⟨by decide, moveColor_no_ops_and_inverse.2.1 initialEditorState (by decide)⟩,
    ⟨by decide, by decide, moveColor_no_ops_and_inverse.2.2 initialEditorState 2
      (by decide) (by decide)⟩⟩

/-- C10: `editColor` (`updateColor`) writes index `i` and touches no other
palette slot; it leaves `ActiveColorIndex` unchanged (in particular whenever
it previously differed from `i`); and neither `moveColor` nor `handleDrop`
(`reorderByDrag`) re-maps `ActiveColorIndex`. -/
theorem updateColor_frame_conditions :
    (∀ (s : EditorState) (i : Nat) (v : String),
      i < s.colors.length → (updateColor s i v).colors.get? i = some v) ∧
    (∀ (s : EditorState) (i j : Nat) (v : String),
      j ≠ i → (updateColor s i v).colors.get? j = s.colors.get? j) ∧
    (∀ (s : EditorState) (i : Nat) (v : String),
      (updateColor s i v).activeColorIndex = s.activeColorIndex) ∧
    (∀ (s : EditorState) (i : Nat) (d : MoveDirection),
      (moveColor s i d).activeColorIndex = s.activeColorIndex) ∧
    (∀ (s : EditorState) (i : Nat),
      (handleDrop s i).activeColorIndex = s.activeColorIndex) := by
  refine ⟨?_, ?_, ?_, ?_, ?_⟩
  · intro s i v h
    simp only [updateColor]
    exact List.get?_set_eq_of_lt _ h
  · intro s i j v hne
    simp only [updateColor]
    exact List.get?_set_ne _ _ (fun h => hne h.symm)
  · intro s i v
    rfl
  · intro s i d
    unfold moveColor
    split <;> rfl
  · intro s i
    cases hd : s.draggedIndex with
    | none => simp [handleDrop, hd]
    | some di =>
      by_cases hdi : di = i
      · simp [handleDrop, hd, hdi]
      · simp only [handleDrop, hd, if_neg hdi]
        cases s.colors.get? di <;> rfl

theorem updateColor_frame_conditions_witness :
    ((3 : Nat) < initialEditorState.colors.length ∧
      (updateColor initialEditorState 3 "#123456").colors.get? 3 = some "#123456") ∧
    ((0 : Nat) ≠ 3 ∧
      (updateColor initialEditorState 3 "#123456").colors.get? 0 =
        initialEditorState.colors.get? 0) ∧
    (updateColor initialEditorState 3 "#123456").activeColorIndex =
      initialEditorState.activeColorIndex := by
  refine ⟨⟨by decide, updateColor_frame_conditions.1 initialEditorState 3 "#123456" (by decide)⟩,
    ⟨by decide, updateColor_frame_conditions.2.1 initialEditorState 3 0 "#123456" (by decide)⟩,
    updateColor_frame_conditions.2.2.1 initialEditorState 3 "#123456"⟩

theorem palette_length_invariant_witness :
    (moveColor initialEditorState 1 .up).colors.length = initialEditorState.colors.length ∧
    (updateColor initialEditorState 3 "#123456").colors.length =
      initialEditorState.colors.length ∧
    ({ initialEditorState with draggedIndex := some 2 } : EditorState).draggedIndex = some 2 ∧
    (2 : Nat) < ({ initialEditorState with draggedIndex := some 2 } : EditorState).colors.length ∧
    (5 : Nat) < ({ initialEditorState with draggedIndex := some 2 } : EditorState).colors.length ∧
    (handleDrop { initialEditorState with draggedIndex := some 2 } 5).colors.length =
      ({ initialEditorState with draggedIndex := some 2 } : EditorState).colors.length := by
  refine ⟨palette_length_invariant.1 initialEditorState 1 .up,
    palette_length_invariant.2.1 initialEditorState 3 "#123456", rfl, by decide, by decide,
    palette_length_invariant.2.2 _ 5 2 rfl (by decide) (by decide)⟩
